import Mathlib

/-!
# Verification of the `memory_manager` allocation tracker

Shallow embedding of `src/src/manager.c` (and `src/include/manager.h`).

The tracker keeps a singly linked list of `struct memory_address` nodes,
each holding one tracked block's address.  We model an address as a `Nat`
(an opaque handle compared only for identity, exactly as the C code
compares `void *` with `!=`), and the reachable list of records as a
`List Addr`: the `head` pointer of `struct memory_manager` together with
the `next` chain is precisely a cons list of the stored addresses.

Calls into the underlying allocator (`malloc`, `calloc`, `realloc`, and
the bookkeeping `malloc` inside `mm_add`) are external and may fail, so
each is passed in as an oracle argument (`Option Addr` for the returned
block, `Bool` for whether the record allocation succeeds).  Calls the
code makes *out* of the core are returned as explicit effect lists:
every function returns, besides its C return value and the updated
manager, the list of blocks passed to `free` and (for the facade) the
list of `alloc_err` diagnostic invocations, in call order.
-/

/-- An opaque heap address (`void *`), compared for identity only. -/
abbrev Addr := Nat

/-- The contents of `struct memory_manager`: the chain of
`struct memory_address` records reachable from `head`, as the list of
their `addr` fields in link order.  The three function-pointer fields
set by `init_mem_manager` always hold `mm_add`, `mm_free`,
`mm_free_all`, so they carry no state and are not represented. -/
structure MemoryManager where
  head : List Addr
deriving DecidableEq, Repr

/-- One invocation of the diagnostic collaborator `alloc_err`, with the
arguments it received. -/
structure AllocErrCall where
  file : String
  func : String
  line : Nat
  err_code : Int
deriving DecidableEq, Repr

/-- `init_mem_manager` (success case): a fresh manager with
`head = NULL`. -/
def init_mem_manager : MemoryManager := ⟨[]⟩

/-- The list walk inside `mm_add`: if `head == NULL` the new node
becomes the head; otherwise walk `ma_cur` to the last node and link the
new node after it.  Appends the new record at the end of the chain. -/
def mm_add_list : List Addr → Addr → List Addr
  | [], ma => [ma]
  | a :: rest, ma => a :: mm_add_list rest ma

/-- `mm_add`: allocate a record node (`record_alloc` is the oracle for
that bookkeeping `malloc`; on `false` the C returns `NULL` with the list
untouched), store `mem` in it and append it to the chain, returning
`ma->addr`, i.e. `mem` itself. -/
def mm_add (mem_manager : MemoryManager) (mem : Addr) (record_alloc : Bool) :
    Option Addr × MemoryManager :=
  match record_alloc with
  | false => (none, mem_manager)
  | true => (some mem, ⟨mm_add_list mem_manager.head mem⟩)

/-- The search-and-unlink loop of `mm_free`: walk the chain tracking
`ma_prev`; if no node stores `mem` return `none` (C returns `-1`),
otherwise unlink the first node whose `addr` equals `mem` (fixing the
predecessor's `next` or the manager's `head`). -/
def mm_free_list : List Addr → Addr → Option (List Addr)
  | [], _ => none
  | a :: rest, mem =>
      if a = mem then some rest
      else Option.map (List.cons a) (mm_free_list rest mem)

/-- `mm_free`: locate the first record storing `mem`; if absent return
`-1` with nothing freed; otherwise detach that record, then
`free(ma->addr)` (the block, which is `mem`) and `free(ma)` (the
record), returning `0`.  Result: (return value, updated manager, blocks
passed to `free` in order). -/
def mm_free (mem_manager : MemoryManager) (mem : Addr) :
    Int × MemoryManager × List Addr :=
  match mm_free_list mem_manager.head mem with
  | none => (-1, mem_manager, [])
  | some l => (0, ⟨l⟩, [mem])

/-- `mm_free_recurse`: recurse over the chain tail-first, freeing each
node's block and the node itself after the recursive call, and counting
`1` per node.  Result: (count, blocks passed to `free` in order — the
last record's block is freed first). -/
def mm_free_recurse : List Addr → Int × List Addr
  | [] => (0, [])
  | a :: rest =>
      let r := mm_free_recurse rest
      (1 + r.1, r.2 ++ [a])

/-- `mm_free_all`: call `mm_free_recurse` on `head` and return its
count.  The C function never writes to `mem_manager`: in particular it
does **not** reset `head` to `NULL`, so the returned manager still
holds the (now freed) record chain — the model keeps the freed nodes'
contents readable, which is what a subsequent traversal observes when
freed memory happens to be unmodified; in C that traversal is a
use-after-free.  Result: (count, manager as left by the call, blocks
passed to `free`). -/
def mm_free_all (mem_manager : MemoryManager) :
    Int × MemoryManager × List Addr :=
  let r := mm_free_recurse mem_manager.head
  (r.1, mem_manager, r.2)

/-- `free_mem_manager`: `-1` with no side effect when the manager
pointer is `NULL`; otherwise call `mm_free_all` (through the
function-pointer field, which `init_mem_manager` set to `mm_free_all`),
then `free` the manager struct itself (modelled by returning `none` for
the manager) and return `0`.  Result: (return value, manager after the
call, blocks passed to `free`). -/
def free_mem_manager : Option MemoryManager → Int × Option MemoryManager × List Addr
  | none => (-1, none, [])
  | some mm => (0, none, (mm_free_all mm).2.2)

/-- `mm_find_in_list`: walk the chain until a node whose `addr` equals
`mem`; return that node, modelled as its position in the chain (`none`
when the walk falls off the end, i.e. C returns `NULL`). -/
def mm_find_in_list : List Addr → Addr → Option Nat
  | [], _ => none
  | a :: rest, mem =>
      if a = mem then some 0
      else Option.map (· + 1) (mm_find_in_list rest mem)

/-- `mm_malloc`: call `malloc(size)` (oracle `malloc_result`); on
`NULL`, call `alloc_err(file, func, line, errno)` and return `NULL`
without touching the manager; on success, if a manager was supplied,
call `mem_manager->mm_add` (i.e. `mm_add`, whose oracle for the record
allocation is `record_alloc`) ignoring its result, and return the
block.  Result: (returned block, manager after the call, `alloc_err`
invocations, blocks passed to `free` — `mm_malloc` itself frees
nothing). -/
def mm_malloc (size : Nat) (malloc_result : Option Addr) (record_alloc : Bool)
    (mem_manager : Option MemoryManager)
    (file func : String) (line : Nat) (errno : Int) :
    Option Addr × Option MemoryManager × List AllocErrCall × List Addr :=
  match malloc_result with
  | none => (none, mem_manager, [⟨file, func, line, errno⟩], [])
  | some mem =>
      match mem_manager with
      | none => (some mem, none, [], [])
      | some mm => (some mem, some (mm_add mm mem record_alloc).2, [], [])

/-- `mm_calloc`: identical control flow to `mm_malloc`, with
`calloc(count, size)` as the underlying allocation (oracle
`calloc_result`). -/
def mm_calloc (count size : Nat) (calloc_result : Option Addr) (record_alloc : Bool)
    (mem_manager : Option MemoryManager)
    (file func : String) (line : Nat) (errno : Int) :
    Option Addr × Option MemoryManager × List AllocErrCall × List Addr :=
  match calloc_result with
  | none => (none, mem_manager, [⟨file, func, line, errno⟩], [])
  | some mem =>
      match mem_manager with
      | none => (some mem, none, [], [])
      | some mm => (some mem, some (mm_add mm mem record_alloc).2, [], [])

/-- `mm_realloc`: call `realloc(ptr, size)` (oracle `realloc_result`);
on `NULL`, call `alloc_err` and return `NULL` without touching the
manager; on success, if a manager was supplied, `mm_find_in_list` the
record holding `ptr` and, if found, overwrite its `addr` with the new
block; return the new block.  Result: (returned block, manager after
the call, `alloc_err` invocations, blocks passed to `free` —
`mm_realloc` itself frees nothing). -/
def mm_realloc (ptr : Addr) (size : Nat) (realloc_result : Option Addr)
    (mem_manager : Option MemoryManager)
    (file func : String) (line : Nat) (errno : Int) :
    Option Addr × Option MemoryManager × List AllocErrCall × List Addr :=
  match realloc_result with
  | none => (none, mem_manager, [⟨file, func, line, errno⟩], [])
  | some mem =>
      match mem_manager with
      | none => (some mem, none, [], [])
      | some mm =>
          match mm_find_in_list mm.head ptr with
          | none => (some mem, some mm, [], [])
          | some i => (some mem, some ⟨mm.head.set i mem⟩, [], [])

/-- A sequence of successful inserts (`mm_add` with the bookkeeping
allocation succeeding each time), in order. -/
def insertAll (mem_manager : MemoryManager) : List Addr → MemoryManager
  | [] => mem_manager
  | a :: rest => insertAll (mm_add mem_manager a true).2 rest

/-! ## Basic lemmas about the list operations -/

/-- The append loop of `mm_add` appends the new address at the end. -/
theorem mm_add_list_eq_append (l : List Addr) (a : Addr) :
    mm_add_list l a = l ++ [a] := by
  induction l with
  | nil => rfl
  | cons b rest ih => simp [mm_add_list, ih]

/-- The `mm_free` search fails exactly on addresses not in the chain. -/
theorem mm_free_list_of_not_mem {l : List Addr} {a : Addr} (h : a ∉ l) :
    mm_free_list l a = none := by
  induction l with
  | nil => rfl
  | cons b rest ih =>
      simp only [List.mem_cons, not_or] at h
      simp [mm_free_list, Ne.symm h.1, ih h.2]

/-- The `mm_free` unlink removes exactly the first record holding `a`. -/
theorem mm_free_list_first (l₁ l₂ : List Addr) (a : Addr) (h : a ∉ l₁) :
    mm_free_list (l₁ ++ a :: l₂) a = some (l₁ ++ l₂) := by
  induction l₁ with
  | nil => simp [mm_free_list]
  | cons b rest ih =>
      simp only [List.mem_cons, not_or] at h
      simp [mm_free_list, Ne.symm h.1, ih h.2]

/-- `mm_find_in_list` fails exactly on addresses not in the chain. -/
theorem mm_find_in_list_of_not_mem {l : List Addr} {a : Addr} (h : a ∉ l) :
    mm_find_in_list l a = none := by
  induction l with
  | nil => rfl
  | cons b rest ih =>
      simp only [List.mem_cons, not_or] at h
      simp [mm_find_in_list, Ne.symm h.1, ih h.2]

/-- `mm_find_in_list` returns the first record holding `a`. -/
theorem mm_find_in_list_first (l₁ l₂ : List Addr) (a : Addr) (h : a ∉ l₁) :
    mm_find_in_list (l₁ ++ a :: l₂) a = some l₁.length := by
  induction l₁ with
  | nil => simp [mm_find_in_list]
  | cons b rest ih =>
      simp only [List.mem_cons, not_or] at h
      simp [mm_find_in_list, Ne.symm h.1, ih h.2]

/-- `mm_find_in_list` succeeds on every stored address. -/
theorem mm_find_in_list_of_mem {l : List Addr} {a : Addr} (h : a ∈ l) :
    mm_find_in_list l a ≠ none := by
  induction l with
  | nil => cases h
  | cons b rest ih =>
      by_cases hb : b = a
      · simp [mm_find_in_list, hb]
      · have : a ∈ rest := by
          rcases List.mem_cons.mp h with h1 | h1
          · exact absurd h1.symm hb
          · exact h1
        simp only [mm_find_in_list, if_neg hb]
        intro hc
        exact ih this (Option.map_eq_none.mp hc)

/-- `mm_free_recurse` counts every node and frees every block, last
record first. -/
theorem mm_free_recurse_eq (l : List Addr) :
    mm_free_recurse l = ((l.length : Int), l.reverse) := by
  induction l with
  | nil => rfl
  | cons a rest ih =>
      simp [mm_free_recurse, ih, add_comm]

/-- Overwriting the record at the position `mm_find_in_list` returned
replaces the first matching record's stored address. -/
theorem list_set_at_first (l₁ l₂ : List Addr) (a b : Addr) :
    (l₁ ++ a :: l₂).set l₁.length b = l₁ ++ b :: l₂ := by
  induction l₁ with
  | nil => rfl
  | cons c rest ih => simp [List.set, ih]

/-- A run of successful inserts appends the inserted addresses in
order. -/
theorem insertAll_head (mem_manager : MemoryManager) (as : List Addr) :
    (insertAll mem_manager as).head = mem_manager.head ++ as := by
  induction as generalizing mem_manager with
  | nil => simp [insertAll]
  | cons a rest ih =>
      simp [insertAll, mm_add, mm_add_list_eq_append, ih]

/-! ## Claims -/

/-- C1: on a registry with one live record, `mm_free_all` returns the
count `1` and frees the block, but it never writes to the manager: the
head still references the (freed) record chain, so the registry is not
left empty — it is not `init_mem_manager`'s empty state — and a second
`mm_free_all`, traversing the chain the head still points to (in C a
use-after-free; the model reads the freed nodes' unmodified contents),
returns `1` again, not `0`. -/
theorem claim_C1_free_all_head_not_reset :
    mm_free_all ⟨[0]⟩ = (1, ⟨[0]⟩, [0]) ∧
    (mm_free_all ⟨[0]⟩).2.1 ≠ init_mem_manager ∧
    (mm_free_all (mm_free_all ⟨[0]⟩).2.1).1 = 1 := by
  refine ⟨rfl, ?_, rfl⟩
  decide

/-- C4: a failing resize (`realloc` returns `NULL`) reports once via
`alloc_err`, returns `NULL`, leaves the registry — hence every record's
stored address and the record count — unchanged, and frees nothing
(in particular not `ptr`). -/
theorem claim_C4_realloc_failure_frame (ptr : Addr) (size : Nat)
    (mem_manager : Option MemoryManager)
    (file func : String) (line : Nat) (errno : Int) :
    mm_realloc ptr size none mem_manager file func line errno
      = (none, mem_manager, [⟨file, func, line, errno⟩], []) := rfl

/-- C5: when the underlying `malloc`/`calloc` fails, the facade calls
`alloc_err` exactly once with the caller-supplied origin and the current
error code, returns `NULL`, and leaves the registry (tracked or absent)
untouched; on the untracked path a success also affects no registry. -/
theorem claim_C5_alloc_failure_reporting (size count : Nat)
    (record_alloc : Bool) (mem_manager : Option MemoryManager)
    (file func : String) (line : Nat) (errno : Int) (mem : Addr) :
    mm_malloc size none record_alloc mem_manager file func line errno
      = (none, mem_manager, [⟨file, func, line, errno⟩], []) ∧
    mm_calloc count size none record_alloc mem_manager file func line errno
      = (none, mem_manager, [⟨file, func, line, errno⟩], []) ∧
    mm_malloc size (some mem) record_alloc none file func line errno
      = (some mem, none, [], []) ∧
    mm_calloc count size (some mem) record_alloc none file func line errno
      = (some mem, none, [], []) :=
  ⟨rfl, rfl, rfl, rfl⟩

/-- C6: a successful `mm_add` appends exactly one record at the end of
the sequence (all earlier records kept in order), returns the same
address unchanged, and increases the length by one; the only failure
case is the bookkeeping record allocation failing, which leaves the
registry unchanged. -/
theorem claim_C6_add_appends (mem_manager : MemoryManager) (mem : Addr) :
    mm_add mem_manager mem true = (some mem, ⟨mem_manager.head ++ [mem]⟩) ∧
    (mm_add mem_manager mem true).2.head.length = mem_manager.head.length + 1 ∧
    mm_add mem_manager mem false = (none, mem_manager) := by
  refine ⟨?_, ?_, rfl⟩ <;> simp [mm_add, mm_add_list_eq_append]

/-- C7: `free_mem_manager` on a `NULL` registry returns `-1` with no
side effect; on a valid registry it invokes `mm_free_all` (freeing
exactly the blocks that call frees), releases the manager struct
itself, and returns `0` whatever the number of released blocks
(including zero, as `free_mem_manager (some init_mem_manager)` shows). -/
theorem claim_C7_free_mem_manager (mm : MemoryManager) :
    free_mem_manager none = (-1, none, []) ∧
    free_mem_manager (some mm) = (0, none, (mm_free_all mm).2.2) ∧
    free_mem_manager (some init_mem_manager) = (0, none, []) :=
  ⟨rfl, rfl, rfl⟩

/-- C2 counterexample: on the registry holding two records for address
`7`, `mm_free 7` succeeds, yet a subsequent `mm_find_in_list` still
finds a record for `7` — the claim's "a subsequent locate(a) reports
not-found" fails as universally stated. -/
theorem claim_C2_counterexample :
    (mm_free ⟨[7, 7]⟩ 7).1 = 0 ∧
    mm_find_in_list ((mm_free ⟨[7, 7]⟩ 7).2.1).head 7 ≠ none := by
  decide

/-- C2 (amended): `mm_free` on an address stored in no record returns
`-1`, leaves the registry unchanged and frees no block; on an address
whose first record sits after prefix `l₁`, it detaches exactly that
record (head or predecessor link fixed up), frees the block and returns
`0`; and provided no *other* record holds the address, a subsequent
`mm_find_in_list` reports not-found. -/
theorem claim_C2_free_one (mem_manager : MemoryManager) (a : Addr) :
    (a ∉ mem_manager.head →
      mm_free mem_manager a = (-1, mem_manager, [])) ∧
    (∀ l₁ l₂, mem_manager.head = l₁ ++ a :: l₂ → a ∉ l₁ →
      mm_free mem_manager a = (0, ⟨l₁ ++ l₂⟩, [a]) ∧
      (a ∉ l₂ → mm_find_in_list (l₁ ++ l₂) a = none)) := by
  constructor
  · intro h
    simp [mm_free, mm_free_list_of_not_mem h]
  · intro l₁ l₂ hhead h1
    constructor
    · simp [mm_free, hhead, mm_free_list_first l₁ l₂ a h1]
    · intro h2
      refine mm_find_in_list_of_not_mem ?_
      simp only [List.mem_append, not_or]
      exact ⟨h1, h2⟩

/-- C2 witness: release-one on `⟨[1, 5, 2]⟩` at `5` detaches the middle
record, frees `5`, and locate then misses; on `⟨[1, 2]⟩` at `5` it
fails with `-1` and no change. -/
theorem claim_C2_witness :
    mm_free ⟨[1, 5, 2]⟩ 5 = (0, ⟨[1] ++ [2]⟩, [5]) ∧
    mm_find_in_list ([1] ++ [2]) 5 = none ∧
    mm_free ⟨[1, 2]⟩ 5 = (-1, ⟨[1, 2]⟩, []) := by
  have h := (claim_C2_free_one ⟨[1, 5, 2]⟩ 5).2 [1] [2] rfl (by decide)
  exact ⟨h.1, h.2 (by decide), (claim_C2_free_one ⟨[1, 2]⟩ 5).1 (by decide)⟩

/-- C3 counterexample: on the registry holding two records for address
`7`, a successful relocating resize of `7` to `9` retargets only the
first record, and a subsequent `mm_find_in_list` still finds a record
for the old address `7` — the claim's "locate(old address) reports
not-found" fails as universally stated. -/
theorem claim_C3_counterexample :
    mm_realloc 7 16 (some 9) (some ⟨[7, 7]⟩) "f" "g" 3 0
      = (some 9, some ⟨[9, 7]⟩, [], []) ∧
    (9 : Addr) ≠ 7 ∧
    mm_find_in_list ((⟨[9, 7]⟩ : MemoryManager)).head 7 ≠ none := by
  refine ⟨rfl, by decide, by decide⟩

/-- C3 (amended): when `realloc` succeeds and exactly one record holds
`ptr` (`ptr` in the chain as `l₁ ++ ptr :: l₂` with `ptr` in neither
side), the record's stored address is overwritten in place: locate of
the new address finds a record, locate of the old address (when the
block was relocated, `mem ≠ ptr`) reports not-found, and the record
count is unchanged; when no record holds `ptr`, the new block is
returned untracked with no error reported and the registry unchanged. -/
theorem claim_C3_realloc_retarget (mem_manager : MemoryManager)
    (ptr mem : Addr) (size : Nat)
    (file func : String) (line : Nat) (errno : Int) :
    (∀ l₁ l₂, mem_manager.head = l₁ ++ ptr :: l₂ → ptr ∉ l₁ →
      mm_realloc ptr size (some mem) (some mem_manager) file func line errno
        = (some mem, some ⟨l₁ ++ mem :: l₂⟩, [], []) ∧
      mm_find_in_list (l₁ ++ mem :: l₂) mem ≠ none ∧
      (l₁ ++ mem :: l₂).length = mem_manager.head.length ∧
      (ptr ∉ l₂ → mem ≠ ptr → mm_find_in_list (l₁ ++ mem :: l₂) ptr = none)) ∧
    (ptr ∉ mem_manager.head →
      mm_realloc ptr size (some mem) (some mem_manager) file func line errno
        = (some mem, some mem_manager, [], [])) := by
  constructor
  · intro l₁ l₂ hhead h1
    refine ⟨?_, ?_, ?_, ?_⟩
    · simp [mm_realloc, hhead, mm_find_in_list_first l₁ l₂ ptr h1,
        list_set_at_first]
    · exact mm_find_in_list_of_mem (by simp)
    · simp [hhead]
    · intro h2 h3
      refine mm_find_in_list_of_not_mem ?_
      simp only [List.mem_append, List.mem_cons, not_or]
      exact ⟨h1, Ne.symm h3, h2⟩
  · intro h
    simp [mm_realloc, mm_find_in_list_of_not_mem h]

/-- C3 witness: a relocating resize of `7` to `9` on `⟨[1, 7, 2]⟩`
retargets the middle record in place; on `⟨[1, 2]⟩`, where `7` is
untracked, the new block is returned with the registry unchanged. -/
theorem claim_C3_witness :
    (mm_realloc 7 16 (some 9) (some ⟨[1, 7, 2]⟩) "f" "g" 3 0
      = (some 9, some ⟨[1] ++ 9 :: [2]⟩, [], []) ∧
     mm_find_in_list ([1] ++ 9 :: [2]) 9 ≠ none ∧
     mm_find_in_list ([1] ++ 9 :: [2]) 7 = none) ∧
    mm_realloc 7 16 (some 9) (some ⟨[1, 2]⟩) "f" "g" 3 0
      = (some 9, some ⟨[1, 2]⟩, [], []) := by
  have h := (claim_C3_realloc_retarget ⟨[1, 7, 2]⟩ 7 9 16 "f" "g" 3 0).1
    [1] [2] rfl (by decide)
  have h' := (claim_C3_realloc_retarget ⟨[1, 2]⟩ 7 9 16 "f" "g" 3 0).2
    (by decide)
  exact ⟨⟨h.1, h.2.1, h.2.2.2 (by decide) (by decide)⟩, h'⟩

/-- C8: when the tracked block's allocation succeeds but the
bookkeeping record allocation inside `mm_add` fails, `mm_malloc` and
`mm_calloc` still return the block with no `alloc_err` call, the
registry is unchanged — the block never enters it — and so
`mm_free_all` on that registry does not free the block. -/
theorem claim_C8_swallowed_insert_failure (mm : MemoryManager) (b : Addr)
    (size count : Nat) (file func : String) (line : Nat) (errno : Int)
    (h : b ∉ mm.head) :
    mm_malloc size (some b) false (some mm) file func line errno
      = (some b, some mm, [], []) ∧
    mm_calloc count size (some b) false (some mm) file func line errno
      = (some b, some mm, [], []) ∧
    b ∉ (mm_free_all mm).2.2 := by
  refine ⟨rfl, rfl, ?_⟩
  simp only [mm_free_all, mm_free_recurse_eq, List.mem_reverse]
  exact h

/-- C8 witness: with registry `⟨[1]⟩` and block `2`, the block is
returned untracked and `mm_free_all` does not free it. -/
theorem claim_C8_witness :
    mm_malloc 8 (some 2) false (some ⟨[1]⟩) "f" "g" 3 12
      = (some 2, some ⟨[1]⟩, [], []) ∧
    mm_calloc 4 2 (some 2) false (some ⟨[1]⟩) "f" "g" 3 12
      = (some 2, some ⟨[1]⟩, [], []) ∧
    (2 : Addr) ∉ (mm_free_all ⟨[1]⟩).2.2 :=
  claim_C8_swallowed_insert_failure ⟨[1]⟩ 2 8 4 "f" "g" 3 12 (by decide)

/-- C9 counterexample: inserting the same address twice (with no
release in between) succeeds and leaves two live records sharing
address `5` — the uniqueness claim fails as stated, because `mm_add`
performs no duplicate check. -/
theorem claim_C9_counterexample :
    (insertAll init_mem_manager [5, 5]).head = [5, 5] ∧
    ¬ ((insertAll init_mem_manager [5, 5]).head).Nodup := by
  decide

/-- C9 (amended): for every sequence of successful inserts of
pairwise-distinct addresses into a fresh registry, with no intervening
releases, no two live records share the same address. -/
theorem claim_C9_nodup_of_distinct_inserts (as : List Addr)
    (h : as.Nodup) : ((insertAll init_mem_manager as).head).Nodup := by
  simpa [insertAll_head, init_mem_manager] using h

/-- C9 witness: inserting the distinct addresses `1, 2, 3` yields a
registry with no duplicated address. -/
theorem claim_C9_witness :
    ((insertAll init_mem_manager [1, 2, 3]).head).Nodup :=
  claim_C9_nodup_of_distinct_inserts [1, 2, 3] (by decide)

/-- C10: `mm_add` performs no duplicate check — on a registry already
holding `a`, inserting `a` again (with the bookkeeping allocation
succeeding) appends a second record for `a`, so `a` is stored at least
twice; and `mm_find_in_list` and `mm_free` then operate only on the
first record holding `a` in sequence order: locate returns the position
right after the `a`-free prefix `l₁`, and release-one removes exactly
that record. -/
theorem claim_C10_duplicate_insert (mem_manager : MemoryManager)
    (a : Addr) (l₁ l₂ : List Addr)
    (ha : a ∈ mem_manager.head) (h1 : a ∉ l₁) :
    (mm_add mem_manager a true = (some a, ⟨mem_manager.head ++ [a]⟩) ∧
      2 ≤ (mem_manager.head ++ [a]).count a) ∧
    mm_find_in_list (l₁ ++ a :: l₂) a = some l₁.length ∧
    mm_free ⟨l₁ ++ a :: l₂⟩ a = (0, ⟨l₁ ++ l₂⟩, [a]) := by
  refine ⟨⟨?_, ?_⟩, mm_find_in_list_first l₁ l₂ a h1, ?_⟩
  · simp [mm_add, mm_add_list_eq_append]
  · have hc : 1 ≤ mem_manager.head.count a := List.count_pos_iff.mpr ha
    simp only [List.count_append, List.count_singleton, beq_self_eq_true,
      if_true]
    omega
  · simp [mm_free, mm_free_list_first l₁ l₂ a h1]

/-- C10 witness: re-inserting `3` into `⟨[3]⟩` yields two records for
`3`; in `[1, 3, 3]` locate returns the first match (position 1) and
release-one removes exactly it. -/
theorem claim_C10_witness :
    (mm_add ⟨[3]⟩ 3 true
        = (some 3, ⟨(⟨[3]⟩ : MemoryManager).head ++ [3]⟩) ∧
      2 ≤ ((⟨[3]⟩ : MemoryManager).head ++ [3]).count 3) ∧
    mm_find_in_list ([1] ++ 3 :: [3]) 3 = some ([1] : List Addr).length ∧
    mm_free ⟨[1] ++ 3 :: [3]⟩ 3 = (0, ⟨[1] ++ [3]⟩, [3]) :=
  claim_C10_duplicate_insert ⟨[3]⟩ 3 [1] [3] (by decide) (by decide)
